import Mathlib

/-!
Verification model of the Belt Stop Sync client (`src/app.js`), a Web
Bluetooth application speaking a newline-delimited, comma-separated ASCII
protocol with an embedded sensor device.

The development shallowly embeds the protocol-relevant parts of the code:

* the Line Framer (`onNotify`, lines 215-224): buffer accumulation and
  newline splitting, modelled over `List Char`;
* the protocol dispatcher (`handleLine`, lines 235-280) and the outbound
  command builders (`sendTimeOnly`, `sendSchedule`, `sendBreaks`,
  `sendThresholds`);
* the connection lifecycle (`connect` success path, `setConnected`,
  `onDisconnected`, `writeLine`) and the button-gated user actions;
* the event store range query (`queryEventsByRange`), using the documented
  IndexedDB semantics of an inclusive key-range cursor over the
  `startEpoch` index (ascending key order);
* JavaScript numeric parsing as used by the code: `parseInt(s, 10)` and
  `parseFloat(s)`, with `NaN` modelled as `Option.none`.

JavaScript numbers are modelled exactly (as `Int`, or as decimal
mantissa/exponent pairs for `parseFloat` results); IEEE-754 double rounding
beyond 2^53 and exponential-notation formatting corner cases are outside
the model and are noted where relevant.

Logging (`log(...)`) is pure observability (appends to a log text area) and
is not part of the modelled state.
-/

namespace BeltStop

/-! ## JavaScript string/number primitives -/

/-- The ASCII whitespace characters recognised by JS `String.prototype.trim`
and by `parseInt`/`parseFloat` leading-whitespace skipping (the protocol is
ASCII, so the additional Unicode space characters JS would also trim never
occur). -/
def isJsWs (c : Char) : Bool :=
  c == ' ' || c == '\t' || c == '\n' || c == '\r' ||
  c == Char.ofNat 11 || c == Char.ofNat 12

/-- Model of JS `String.prototype.trim` on the character list of a string. -/
def trimChars (l : List Char) : List Char :=
  ((l.dropWhile isJsWs).reverse.dropWhile isJsWs).reverse

/-- Model of JS `String.prototype.split(sep)` for a one-character separator:
always returns at least one (possibly empty) piece. -/
def splitChar (sep : Char) : List Char → List (List Char)
  | [] => [[]]
  | c :: cs =>
    if c = sep then [] :: splitChar sep cs
    else
      match splitChar sep cs with
      | [] => [[c]]
      | t :: ts => (c :: t) :: ts

/-- `line.split(',')` (or `':'` for `hhmmToMin`) on Lean strings. -/
def jsSplit (sep : Char) (s : String) : List String :=
  (splitChar sep s.data).map (fun l => String.mk l)

/-- Numeric value of a list of decimal digit characters. -/
def digitsVal (l : List Char) : Nat :=
  l.foldl (fun n c => n * 10 + (c.toNat - '0'.toNat)) 0

/-- Consume an optional leading ASCII sign, returning the sign as `±1`. -/
def readSign : List Char → Int × List Char
  | '-' :: cs => (-1, cs)
  | '+' :: cs => (1, cs)
  | cs => (1, cs)

/-- Model of JS `parseInt(s, 10)`: skip leading whitespace, optional sign,
then the longest prefix of decimal digits; `none` models `NaN` (no digits).
Trailing garbage is ignored, exactly as in JS. -/
def jsParseInt10 (s : String) : Option Int :=
  let l := s.data.dropWhile isJsWs
  let p := readSign l
  let ds := p.2.takeWhile Char.isDigit
  if ds.isEmpty then none else some (p.1 * (digitsVal ds : Int))

/-- The `parseInt(x, 10) || 0` idiom: `NaN` (and `0` itself) collapse
to `0`. -/
def parseIntOr0 (s : String) : Int :=
  (jsParseInt10 s).getD 0

/-- A finite JS float modelled exactly as `mantissa * 10 ^ exp10`
(`parseFloat` of a decimal literal always yields such a value). -/
structure DecNum where
  mant : Int
  exp10 : Int
deriving DecidableEq, Repr

/-- Read the longest prefix of decimal digits. -/
def readDigits (l : List Char) : List Char × List Char :=
  (l.takeWhile Char.isDigit, l.dropWhile Char.isDigit)

/-- Exponent part of a decimal literal: `e`/`E`, optional sign, digits.
If the digits are missing the exponent part is not consumed (JS longest
valid literal rule, e.g. `parseFloat("1e") = 1`). -/
def readExp (l : List Char) : Int :=
  match l with
  | 'e' :: cs | 'E' :: cs =>
    let p := readSign cs
    let d := readDigits p.2
    if d.1.isEmpty then 0 else p.1 * (digitsVal d.1 : Int)
  | _ => 0

/-- Model of JS `parseFloat(s)` restricted to finite results: `none` models
a non-finite result (`NaN`, or `±Infinity` for an `Infinity` literal) —
the code's only use sites gate on `isFinite(v)`, under which the two
non-finite outcomes are indistinguishable. -/
def jsParseFloat (s : String) : Option DecNum :=
  let l := s.data.dropWhile isJsWs
  let p := readSign l
  if p.2.take 8 = "Infinity".data then none
  else
    let ip := readDigits p.2
    let fp : List Char × List Char :=
      match ip.2 with
      | '.' :: cs => readDigits cs
      | _ => ([], ip.2)
    if ip.1.isEmpty ∧ fp.1.isEmpty then none
    else
      let e := readExp fp.2
      some ⟨p.1 * (digitsVal (ip.1 ++ fp.1) : Int), e - fp.1.length⟩

/-- Drop trailing `'0'` characters. -/
def dropTrailZeros (l : List Char) : List Char :=
  (l.reverse.dropWhile (· == '0')).reverse

/-- Decimal rendering of a finite JS number, or `"NaN"`.  Matches JS
number-to-string output for the plain decimal range (the exponential
notation JS switches to below `1e-7` / at `1e21` and shortest-round-trip
double rounding are display details no theorem below depends on). -/
def numStrF (x : Option DecNum) : String :=
  match x with
  | none => "NaN"
  | some n =>
    if 0 ≤ n.exp10 then toString (n.mant * (10 : Int) ^ n.exp10.toNat)
    else
      let k := (-n.exp10).toNat
      let a := n.mant.natAbs
      let ip := a / 10 ^ k
      let fr := a % 10 ^ k
      let sgn := if n.mant < 0 then "-" else ""
      if fr = 0 then sgn ++ toString ip
      else
        let fd := dropTrailZeros
          (List.replicate (k - (toString fr).data.length) '0' ++ (toString fr).data)
        sgn ++ toString ip ++ "." ++ String.mk fd

/-- Decimal rendering of an `Int`-valued JS number, or `"NaN"`
(template-literal interpolation `${n}`). -/
def numStr (x : Option Int) : String :=
  match x with
  | none => "NaN"
  | some n => toString n

/-- Model of JS `Number.prototype.toFixed(6)` applied to a finite decimal
value (rounding half away from zero on the exact value; the
double-precision tie cases differ only in the 17th significant digit and
never arise in the claims below). -/
def toFixed6 (n : DecNum) : String :=
  let sgn := if n.mant < 0 then "-" else ""
  let a := n.mant.natAbs
  let e6 := n.exp10 + 6
  let v : Nat :=
    if 0 ≤ e6 then a * 10 ^ e6.toNat
    else (2 * a + 10 ^ (-e6).toNat) / (2 * 10 ^ (-e6).toNat)
  let ds := (toString v).data
  let ds := List.replicate (7 - ds.length) '0' ++ ds
  sgn ++ String.mk (ds.take (ds.length - 6)) ++ "." ++ String.mk (ds.drop (ds.length - 6))

/-- The CAL display update (line 254):
`isFinite(v) ? v.toFixed(6) : '0.000000'`. -/
def calDisplay (x : Option DecNum) : String :=
  match x with
  | none => "0.000000"
  | some n => toFixed6 n

/-! ## Line Framer (`onNotify`, lines 215-224)

`onNotify` appends the decoded chunk to `lineBuffer`, then repeatedly: finds
the first `'\n'`, takes the prefix before it, trims it, removes the consumed
prefix including the newline, and hands the trimmed line to `handleLine` if
it is non-empty.  Chunks are modelled as character lists (the TextDecoder
step; the protocol is ASCII so chunk boundaries never split a code point).
-/

/-- `buf.indexOf('\n')` + the two `slice`s of lines 220-221: the part
strictly before the first newline and the part strictly after it, or
`none` if the buffer holds no newline. -/
def splitFirstNl : List Char → Option (List Char × List Char)
  | [] => none
  | c :: cs =>
    if c = '\n' then some ([], cs)
    else
      match splitFirstNl cs with
      | none => none
      | some (pre, post) => some (c :: pre, post)

theorem splitFirstNl_post_lt : ∀ {l pre post : List Char},
    splitFirstNl l = some (pre, post) → post.length < l.length := by
  intro l
  induction l with
  | nil => intro pre post h; simp [splitFirstNl] at h
  | cons c cs ih =>
    intro pre post h
    by_cases hc : c = '\n'
    · simp [splitFirstNl, hc] at h
      simp [← h.2]
    · simp [splitFirstNl, hc] at h
      cases hs : splitFirstNl cs with
      | none => rw [hs] at h; simp at h
      | some pr =>
        rw [hs] at h
        simp at h
        have := @ih pr.1 pr.2 (by rw [hs])
        simp [← h.2]
        omega

/-- The `while` loop of lines 219-223, character by character: `acc` holds
the (reversed) characters of the current line read so far.  On `'\n'` the
accumulated line is trimmed and emitted if non-empty; at the end of the
buffer the accumulated characters are the retained `lineBuffer`.
`processBuffer_none`/`processBuffer_some` below recover the
`indexOf('\n')`/`slice` formulation of the source loop. -/
def scanBuf (acc : List Char) : List Char → List (List Char) × List Char
  | [] => ([], acc.reverse)
  | c :: cs =>
    if c = '\n' then
      let t := trimChars acc.reverse
      let r := scanBuf [] cs
      (if t = [] then r.1 else t :: r.1, r.2)
    else scanBuf (c :: acc) cs

/-- The loop of lines 219-223 run to completion on a buffer: the trimmed
non-empty lines handed to `handleLine`, in order, and the remaining
buffer. -/
def processBuffer (buf : List Char) : List (List Char) × List Char :=
  scanBuf [] buf

theorem scanBuf_of_splitFirstNl_none : ∀ {l : List Char} (acc : List Char),
    splitFirstNl l = none → scanBuf acc l = ([], acc.reverse ++ l) := by
  intro l
  induction l with
  | nil => intro acc _; simp [scanBuf]
  | cons c cs ih =>
    intro acc h
    by_cases hc : c = '\n'
    · simp [splitFirstNl, hc] at h
    · simp only [splitFirstNl, if_neg hc] at h
      cases hs : splitFirstNl cs with
      | none =>
        simp only [scanBuf, if_neg hc]
        rw [ih (c :: acc) hs]
        simp
      | some pr => rw [hs] at h; simp at h

theorem scanBuf_of_splitFirstNl_some : ∀ {l pre post : List Char} (acc : List Char),
    splitFirstNl l = some (pre, post) →
    scanBuf acc l =
      (if trimChars (acc.reverse ++ pre) = [] then (scanBuf [] post).1
       else trimChars (acc.reverse ++ pre) :: (scanBuf [] post).1,
       (scanBuf [] post).2) := by
  intro l
  induction l with
  | nil => intro pre post acc h; simp [splitFirstNl] at h
  | cons c cs ih =>
    intro pre post acc h
    by_cases hc : c = '\n'
    · subst hc
      simp [splitFirstNl] at h
      obtain ⟨h1, h2⟩ := h
      subst h1
      subst h2
      simp [scanBuf]
    · simp only [splitFirstNl, if_neg hc] at h
      cases hs : splitFirstNl cs with
      | none => rw [hs] at h; simp at h
      | some pr =>
        rw [hs] at h
        simp at h
        simp only [scanBuf, if_neg hc]
        rw [ih (c :: acc) (show splitFirstNl cs = some (pr.1, pr.2) by rw [hs])]
        simp [← h.1, ← h.2]

/-- `processBuffer` on a buffer without a newline: nothing is emitted and
the buffer is retained (`indexOf` returns `-1`, the loop does not run). -/
theorem processBuffer_none {buf : List Char} (h : splitFirstNl buf = none) :
    processBuffer buf = ([], buf) := by
  rw [processBuffer, scanBuf_of_splitFirstNl_none [] h]
  simp

/-- `processBuffer` on a buffer whose first newline splits it as
`pre ++ '\n' ++ post`: one iteration of the source loop — trim `pre`, emit
it if non-empty, continue on `post`. -/
theorem processBuffer_some {buf pre post : List Char}
    (h : splitFirstNl buf = some (pre, post)) :
    processBuffer buf =
      (if trimChars pre = [] then (processBuffer post).1
       else trimChars pre :: (processBuffer post).1, (processBuffer post).2) := by
  rw [processBuffer, scanBuf_of_splitFirstNl_some [] h]
  simp [processBuffer]

/-- Companion scan producing the raw newline-terminated segments of a
buffer (before trimming and the non-emptiness filter) and the
non-terminated tail. -/
def scanSegs (acc : List Char) : List Char → List (List Char) × List Char
  | [] => ([], acc.reverse)
  | c :: cs =>
    if c = '\n' then
      let r := scanSegs [] cs
      (acc.reverse :: r.1, r.2)
    else scanSegs (c :: acc) cs

/-- The raw newline-terminated segments of a buffer and its non-terminated
tail. -/
def rawSegs (buf : List Char) : List (List Char) × List Char :=
  scanSegs [] buf

theorem scanSegs_of_splitFirstNl_none : ∀ {l : List Char} (acc : List Char),
    splitFirstNl l = none → scanSegs acc l = ([], acc.reverse ++ l) := by
  intro l
  induction l with
  | nil => intro acc _; simp [scanSegs]
  | cons c cs ih =>
    intro acc h
    by_cases hc : c = '\n'
    · simp [splitFirstNl, hc] at h
    · simp only [splitFirstNl, if_neg hc] at h
      cases hs : splitFirstNl cs with
      | none =>
        simp only [scanSegs, if_neg hc]
        rw [ih (c :: acc) hs]
        simp
      | some pr => rw [hs] at h; simp at h

theorem scanSegs_of_splitFirstNl_some : ∀ {l pre post : List Char} (acc : List Char),
    splitFirstNl l = some (pre, post) →
    scanSegs acc l =
      ((acc.reverse ++ pre) :: (scanSegs [] post).1, (scanSegs [] post).2) := by
  intro l
  induction l with
  | nil => intro pre post acc h; simp [splitFirstNl] at h
  | cons c cs ih =>
    intro pre post acc h
    by_cases hc : c = '\n'
    · subst hc
      simp [splitFirstNl] at h
      obtain ⟨h1, h2⟩ := h
      subst h1
      subst h2
      simp [scanSegs]
    · simp only [splitFirstNl, if_neg hc] at h
      cases hs : splitFirstNl cs with
      | none => rw [hs] at h; simp at h
      | some pr =>
        rw [hs] at h
        simp at h
        simp only [scanSegs, if_neg hc]
        rw [ih (c :: acc) (show splitFirstNl cs = some (pr.1, pr.2) by rw [hs])]
        simp [← h.1, ← h.2]

theorem rawSegs_none {buf : List Char} (h : splitFirstNl buf = none) :
    rawSegs buf = ([], buf) := by
  rw [rawSegs, scanSegs_of_splitFirstNl_none [] h]
  simp

theorem rawSegs_some {buf pre post : List Char}
    (h : splitFirstNl buf = some (pre, post)) :
    rawSegs buf = (pre :: (rawSegs post).1, (rawSegs post).2) := by
  rw [rawSegs, scanSegs_of_splitFirstNl_some [] h]
  simp [rawSegs]

/-- One `onNotify` call: append the chunk to the retained buffer, process,
and accumulate the emitted lines. -/
def feedChunk (st : List (List Char) × List Char) (chunk : List Char) :
    List (List Char) × List Char :=
  let r := processBuffer (st.2 ++ chunk)
  (st.1 ++ r.1, r.2)

/-- A whole sequence of `onNotify` calls starting from the initial empty
`lineBuffer`. -/
def feedAll (chunks : List (List Char)) : List (List Char) × List Char :=
  chunks.foldl feedChunk ([], [])

/-! ### Framer lemmas -/

theorem splitFirstNl_eq_none_of_not_mem : ∀ {l : List Char},
    '\n' ∉ l → splitFirstNl l = none := by
  intro l
  induction l with
  | nil => intro _; rfl
  | cons c cs ih =>
    intro h
    have hc : ¬ c = '\n' := fun hcc => h (by simp [hcc])
    have hcs : splitFirstNl cs = none := ih (fun hm => h (List.mem_cons_of_mem _ hm))
    simp [splitFirstNl, hc, hcs]

theorem not_mem_of_splitFirstNl_eq_none : ∀ {l : List Char},
    splitFirstNl l = none → '\n' ∉ l := by
  intro l
  induction l with
  | nil => simp
  | cons c cs ih =>
    intro h
    by_cases hc : c = '\n'
    · simp [splitFirstNl, hc] at h
    · simp only [splitFirstNl, if_neg hc] at h
      cases hs : splitFirstNl cs with
      | none =>
        intro hm
        rcases List.mem_cons.mp hm with h1 | h2
        · exact hc h1.symm
        · exact ih hs h2
      | some pr => rw [hs] at h; simp at h

theorem splitFirstNl_append_some : ∀ {a : List Char} {pre post : List Char}
    (b : List Char), splitFirstNl a = some (pre, post) →
    splitFirstNl (a ++ b) = some (pre, post ++ b) := by
  intro a
  induction a with
  | nil => intro pre post b h; simp [splitFirstNl] at h
  | cons c cs ih =>
    intro pre post b h
    by_cases hc : c = '\n'
    · subst hc
      simp [splitFirstNl] at h
      obtain ⟨h1, h2⟩ := h
      subst h1
      subst h2
      simp [splitFirstNl]
    · simp only [splitFirstNl, if_neg hc] at h
      cases hs : splitFirstNl cs with
      | none => rw [hs] at h; simp at h
      | some pr =>
        rw [hs] at h
        simp at h
        have h3 := ih b (show splitFirstNl cs = some (pr.1, pr.2) by rw [hs])
        show splitFirstNl (c :: (cs ++ b)) = _
        simp only [splitFirstNl, if_neg hc]
        rw [h3]
        simp [← h.1, ← h.2]

theorem processBuffer_append (b a : List Char) :
    processBuffer (a ++ b) =
      ((processBuffer a).1 ++ (processBuffer ((processBuffer a).2 ++ b)).1,
       (processBuffer ((processBuffer a).2 ++ b)).2) := by
  generalize hn : a.length = n
  induction n using Nat.strong_induction_on generalizing a with
  | _ n ih =>
    cases hs : splitFirstNl a with
    | none => rw [processBuffer_none hs]; simp
    | some pr =>
      obtain ⟨pre, post⟩ := pr
      rw [processBuffer_some hs, processBuffer_some (splitFirstNl_append_some b hs)]
      have hlt : post.length < a.length := splitFirstNl_post_lt hs
      have IH := ih post.length (by omega) post rfl
      rw [IH]
      by_cases ht : trimChars pre = [] <;> simp [ht]

theorem processBuffer_tail_no_newline (l : List Char) :
    '\n' ∉ (processBuffer l).2 := by
  generalize hn : l.length = n
  induction n using Nat.strong_induction_on generalizing l with
  | _ n ih =>
    cases hs : splitFirstNl l with
    | none =>
      rw [processBuffer_none hs]
      exact not_mem_of_splitFirstNl_eq_none hs
    | some pr =>
      obtain ⟨pre, post⟩ := pr
      rw [processBuffer_some hs]
      have hlt : post.length < l.length := splitFirstNl_post_lt hs
      exact ih post.length (by omega) post rfl

/-- The lines emitted from a buffer are exactly its raw newline-terminated
segments, trimmed, with the (trim-)empty ones dropped; the retained tail is
the raw non-terminated tail. -/
theorem processBuffer_eq_rawSegs (l : List Char) :
    processBuffer l =
      (((rawSegs l).1.map trimChars).filter (fun t => !t.isEmpty), (rawSegs l).2) := by
  generalize hn : l.length = n
  induction n using Nat.strong_induction_on generalizing l with
  | _ n ih =>
    cases hs : splitFirstNl l with
    | none => rw [processBuffer_none hs, rawSegs_none hs]; simp
    | some pr =>
      obtain ⟨pre, post⟩ := pr
      rw [processBuffer_some hs, rawSegs_some hs]
      have hlt : post.length < l.length := splitFirstNl_post_lt hs
      have IH := ih post.length (by omega) post rfl
      rw [IH]
      by_cases ht : trimChars pre = []
      · have hb : (trimChars pre).isEmpty = true := by simp [ht]
        simp [ht, List.filter_cons, hb]
      · have hb : (trimChars pre).isEmpty = false := by
          simpa [List.isEmpty_iff] using ht
        simp [List.filter_cons, hb]
        exact ht

theorem foldl_feedChunk (chunks : List (List Char)) :
    ∀ st : List (List Char) × List Char, '\n' ∉ st.2 →
      chunks.foldl feedChunk st =
        (st.1 ++ (processBuffer (st.2 ++ chunks.flatten)).1,
         (processBuffer (st.2 ++ chunks.flatten)).2) := by
  induction chunks with
  | nil =>
    intro st hst
    have h0 : processBuffer st.2 = ([], st.2) :=
      processBuffer_none (splitFirstNl_eq_none_of_not_mem hst)
    simp [h0]
  | cons c cs ih =>
    intro st hst
    have h2 : '\n' ∉ (processBuffer (st.2 ++ c)).2 :=
      processBuffer_tail_no_newline _
    rw [show List.foldl feedChunk st (c :: cs) =
          List.foldl feedChunk (feedChunk st c) cs from rfl,
        ih (feedChunk st c) (by simpa [feedChunk] using h2)]
    rw [List.flatten_cons, ← List.append_assoc st.2 c cs.flatten,
        processBuffer_append cs.flatten (st.2 ++ c)]
    simp [feedChunk, List.append_assoc]

/-- Processing a chunk sequence is processing its concatenation: the framer
is chunking-invariant. -/
theorem feedAll_eq_flatten (chunks : List (List Char)) :
    feedAll chunks = processBuffer chunks.flatten := by
  have := foldl_feedChunk chunks ([], []) (by simp)
  simpa [feedAll] using this

/-! ## Data model and session state -/

/-- A stored stop event (the object handed to `addEvent`, line 263), plus
the auto-incremented IndexedDB primary key `id` (keyPath `'id'`,
`autoIncrement: true`, line 77). -/
structure StoredEvent where
  id : Nat
  startEpoch : Int
  durationMs : Int
  deviceId : String
  accumStops : Int
deriving DecidableEq, Repr

/-- The module-level mutable state of `app.js` relevant to the protocol and
session (lines 63-64, 233) together with the UI observables the handlers
write and the event store contents.  Handles (`device`, `service`,
`rxChar`, `txChar`) are modelled by whether they are set; `deviceName`
is `device?.name` (`none` = no device or no name).  Setting values passed
to `saveSetting` are recorded by key in call order (`savedKeys`); nothing
in the modelled flows reads them back. -/
structure St where
  connectedUI : Bool
  rxCharSet : Bool
  txCharSet : Bool
  serviceSet : Bool
  deviceName : Option String
  lastIdxFromDevice : Int
  shiftStops : Option Int
  vibGDisplay : Option String
  lastStop : Option (Int × Int)
  syncInfo : Option String
  events : List StoredEvent
  nextId : Nat
  savedKeys : List String
deriving DecidableEq, Repr

/-- Module state at page load: no handles, `lastIdxFromDevice = -1`,
empty event store. -/
def initSt : St where
  connectedUI := false
  rxCharSet := false
  txCharSet := false
  serviceSet := false
  deviceName := none
  lastIdxFromDevice := -1
  shiftStops := none
  vibGDisplay := none
  lastStop := none
  syncInfo := none
  events := []
  nextId := 1
  savedKeys := []

/-- `writeLine` (lines 226-230): guard on the `rxChar` handle, append the
newline, write the encoded bytes.  The result is the list of lines actually
written to the transport by this call. -/
def writeLineEff (st : St) (s : String) : List String :=
  if st.rxCharSet then [s ++ "\n"] else []

/-- `device?.name || 'unknown'` (line 263): a missing device/name or the
empty (falsy) name both yield `"unknown"`. -/
def deviceIdOf (st : St) : String :=
  match st.deviceName with
  | none => "unknown"
  | some n => if n = "" then "unknown" else n

/-- Environment inputs read by the command builders: the clock and the raw
UI form field values. -/
structure Env where
  epochNow : Int
  tzSelValue : String
  winEnabled : Bool
  winStart : String
  winEnd : String
  breaksEnabled : Bool
  b1Start : String
  b1End : String
  b2Start : String
  b2End : String
  threshVal : String
  hystVal : String
  secsDownVal : String
  secsUpVal : String
deriving DecidableEq, Repr

/-- `hhmmToMin` (lines 318-321): split on `':'`, map each piece through
`parseInt(n,10)||0`, destructure the first two.  A string with no `':'`
yields a single piece, leaving `m` undefined, so `h*60 + m` is `NaN`
(modelled `none`). -/
def hhmmToMin (s : String) : Option Int :=
  match (jsSplit ':' s).map parseIntOr0 with
  | [] => none
  | [_] => none
  | h :: m :: _ => some (h * 60 + m)

/-- The line written by `sendTimeOnly` (line 287). -/
def timeLine (env : Env) : String :=
  "TIME,UTC," ++ toString env.epochNow ++ "," ++ numStr (jsParseInt10 env.tzSelValue)

/-- The line written by `sendSchedule` (line 294). -/
def schedLine (env : Env) : String :=
  "CFG,SCHED," ++ numStr (hhmmToMin env.winStart) ++ "," ++
    numStr (hhmmToMin env.winEnd) ++ "," ++ (if env.winEnabled then "1" else "0")

/-- The line written by `sendBreaks` (line 304). -/
def breaksLine (env : Env) : String :=
  "CFG,BREAKS," ++ numStr (hhmmToMin env.b1Start) ++ "," ++
    numStr (hhmmToMin env.b1End) ++ "," ++ numStr (hhmmToMin env.b2Start) ++ "," ++
    numStr (hhmmToMin env.b2End) ++ "," ++ (if env.breaksEnabled then "1" else "0")

/-- The line written by `sendThresholds` (line 313). -/
def threshLine (env : Env) : String :=
  "CFG,THRESH," ++ numStrF (jsParseFloat env.threshVal) ++ "," ++
    numStrF (jsParseFloat env.hystVal) ++ "," ++ numStr (jsParseInt10 env.secsDownVal) ++
    "," ++ numStr (jsParseInt10 env.secsUpVal)

/-- `sendTimeOnly` (lines 283-288): one fire-and-forget write, no state
change. -/
def sendTimeOnlyM (env : Env) (st : St) : List String :=
  writeLineEff st (timeLine env)

/-- `sendSchedule` (lines 290-296): write, then `saveSetting('schedule', …)`. -/
def sendScheduleM (env : Env) (st : St) : St × List String :=
  ({ st with savedKeys := st.savedKeys ++ ["schedule"] }, writeLineEff st (schedLine env))

/-- `sendBreaks` (lines 298-306): write, then `saveSetting('breaks', …)`. -/
def sendBreaksM (env : Env) (st : St) : St × List String :=
  ({ st with savedKeys := st.savedKeys ++ ["breaks"] }, writeLineEff st (breaksLine env))

/-- `sendThresholds` (lines 308-315): write, then
`saveSetting('thresholds', …)`. -/
def sendThresholdsM (env : Env) (st : St) : St × List String :=
  ({ st with savedKeys := st.savedKeys ++ ["thresholds"] }, writeLineEff st (threshLine env))

/-! ## Protocol dispatcher (`handleLine`, lines 235-280) -/

/-- The `switch (parts[0])` body of `handleLine`, on the already-split
field list.  Returns the updated state and the lines written to the
transport, in order.  Every branch is total: malformed input can only
select the silent fall-through paths, never throw. -/
def handleParts (env : Env) (st : St) (parts : List String) : St × List String :=
  let k := parts.headD ""
  if k = "HELLO" then
    -- lines 239-249; the config pushes happen on every HELLO, the
    -- field-count check only guards the accumStops display update
    let st1 := if 8 ≤ parts.length then
        { st with shiftStops := some (parseIntOr0 (parts.getD 7 "")) }
      else st
    let w1 := sendTimeOnlyM env st1
    let r2 := sendScheduleM env st1
    let r3 := sendBreaksM env r2.1
    (r3.1, w1 ++ r2.2 ++ r3.2)
  else if k = "CAL" then
    -- lines 251-256
    if 2 ≤ parts.length then
      ({ st with vibGDisplay := some (calDisplay (jsParseFloat (parts.getD 1 ""))) }, [])
    else (st, [])
  else if k = "EV" then
    -- lines 257-267
    if 4 ≤ parts.length then
      let start := parseIntOr0 (parts.getD 1 "")
      let dur := parseIntOr0 (parts.getD 2 "")
      let accum := parseIntOr0 (parts.getD 3 "")
      let ev : StoredEvent :=
        ⟨st.nextId, start, dur, deviceIdOf st, accum⟩
      ({ st with events := st.events ++ [ev], nextId := st.nextId + 1,
                 shiftStops := some accum, lastStop := some (start, dur) }, [])
    else (st, [])
  else if k = "SYNC" then
    -- lines 269-276
    if 3 ≤ parts.length ∧ parts.getD 1 "" = "DONE" then
      let last := parseIntOr0 (parts.getD 2 "")
      ({ st with lastIdxFromDevice := last, syncInfo := some "Sync complete." },
       writeLineEff st ("SYNC,ACK," ++ toString last))
    else (st, [])
  else (st, [])

/-- `handleLine` (lines 235-280): split the line on commas and dispatch on
the first field. -/
def handleLine (env : Env) (st : St) (line : String) : St × List String :=
  handleParts env st (jsSplit ',' line)

/-! ## Connection lifecycle and user actions -/

/-- The successful tail of `connect` (lines 181-190): the handles are set
and `setConnected(true)` enables the command buttons. -/
def connectSuccess (name : Option String) (st : St) : St :=
  { st with deviceName := name, serviceSet := true, rxCharSet := true,
            txCharSet := true, connectedUI := true }

/-- `onDisconnected` (lines 210-213): only `setConnected(false)` and a log
line — the `service`/`rxChar`/`txChar` handles are left as they were. -/
def onDisconnectedM (st : St) : St :=
  { st with connectedUI := false }

/-- The user-triggered command actions (click handlers, lines 421-429). -/
inductive UAct where
  | uSendTime
  | uSendSchedule
  | uSendBreaks
  | uSendThresh
  | uCalOn
  | uCalOff
  | uSyncReq
deriving DecidableEq, Repr

/-- Dispatch of one user click.  `setConnected` keeps every command
button's `disabled` attribute equal to `¬connectedUI` (lines 196-205), and
a disabled button does not fire its click handler — so outside the
Connected state each of these actions is a no-op.  (`btnCalOn`'s extra
`btnCalOff.disabled = false` is redundant while connected and is restored
by the next `setConnected`.) -/
def doUAct (env : Env) (st : St) (a : UAct) : St × List String :=
  if st.connectedUI then
    match a with
    | .uSendTime => (st, sendTimeOnlyM env st)
    | .uSendSchedule => sendScheduleM env st
    | .uSendBreaks => sendBreaksM env st
    | .uSendThresh => sendThresholdsM env st
    | .uCalOn => (st, writeLineEff st "MODE,CALIB,ON")
    | .uCalOff => (st, writeLineEff st "MODE,CALIB,OFF")
    | .uSyncReq => ({ st with syncInfo := some "Syncing..." }, writeLineEff st "SYNC,REQ")
  else (st, [])

/-- A sequence of user clicks, accumulating all transport writes. -/
def runUActs (env : Env) (st : St) : List UAct → St × List String
  | [] => (st, [])
  | a :: as' =>
    let r := doUAct env st a
    let rs := runUActs env r.1 as'
    (rs.1, r.2 ++ rs.2)

/-! ## Event store range query (`queryEventsByRange`, lines 114-128)

The query opens a cursor over the `startEpoch` index with
`IDBKeyRange.bound(fromEpoch, toEpoch, false, false)` — both bounds
inclusive — and collects the records in cursor order.  Per the IndexedDB
specification an index cursor visits records in ascending key order
(ties in ascending primary-key order).  On a store holding `events` in
insertion order this is a stable ascending sort by `startEpoch` of the
records whose key lies in the inclusive range. -/

/-- Stable insertion into a list sorted by `startEpoch`: the new record
goes after every record with a key `≤` its own. -/
def insertByStart (e : StoredEvent) : List StoredEvent → List StoredEvent
  | [] => [e]
  | x :: xs =>
    if x.startEpoch ≤ e.startEpoch then x :: insertByStart e xs
    else e :: x :: xs

/-- Stable ascending sort by `startEpoch`. -/
def sortByStart (l : List StoredEvent) : List StoredEvent :=
  l.foldl (fun acc e => insertByStart e acc) []

/-- `queryEventsByRange(fromEpoch, toEpoch)`: the records whose
`startEpoch` lies in the inclusive range, in ascending `startEpoch`
order. -/
def queryEventsByRange (events : List StoredEvent) (fromEpoch toEpoch : Int) :
    List StoredEvent :=
  sortByStart (events.filter
    (fun e => decide (fromEpoch ≤ e.startEpoch) && decide (e.startEpoch ≤ toEpoch)))

/-! ### Sorting lemmas for the range query -/

theorem insertByStart_perm (e : StoredEvent) :
    ∀ l : List StoredEvent, List.Perm (insertByStart e l) (e :: l) := by
  intro l
  induction l with
  | nil => exact List.Perm.refl _
  | cons x xs ih =>
    by_cases h : x.startEpoch ≤ e.startEpoch
    · simp only [insertByStart, if_pos h]
      exact (List.Perm.cons x ih).trans (List.Perm.swap e x xs)
    · simp only [insertByStart, if_neg h]
      exact List.Perm.refl _

theorem foldl_insertByStart_perm :
    ∀ l acc : List StoredEvent,
      List.Perm (l.foldl (fun acc e => insertByStart e acc) acc) (acc ++ l) := by
  intro l
  induction l with
  | nil => intro acc; simp
  | cons e es ih =>
    intro acc
    have h1 := ih (insertByStart e acc)
    have h2 : List.Perm (insertByStart e acc ++ es) ((e :: acc) ++ es) :=
      (insertByStart_perm e acc).append_right es
    have h3 : List.Perm ((e :: acc) ++ es) (acc ++ e :: es) := by
      simpa using (@List.perm_middle _ e acc es).symm
    exact (h1.trans h2).trans h3

theorem sortByStart_perm (l : List StoredEvent) : List.Perm (sortByStart l) l := by
  simpa [sortByStart] using foldl_insertByStart_perm l []

theorem insertByStart_sorted {l : List StoredEvent}
    (h : l.Sorted (fun a b => a.startEpoch ≤ b.startEpoch)) (e : StoredEvent) :
    (insertByStart e l).Sorted (fun a b => a.startEpoch ≤ b.startEpoch) := by
  induction l with
  | nil => simp [insertByStart]
  | cons x xs ih =>
    rcases List.sorted_cons.mp h with ⟨hx, hxs⟩
    by_cases hle : x.startEpoch ≤ e.startEpoch
    · simp only [insertByStart, if_pos hle]
      refine List.sorted_cons.mpr ⟨?_, ih hxs⟩
      intro y hy
      have hy' := (insertByStart_perm e xs).mem_iff.mp hy
      rcases List.mem_cons.mp hy' with rfl | hmem
      · exact hle
      · exact hx y hmem
    · simp only [insertByStart, if_neg hle]
      refine List.sorted_cons.mpr ⟨?_, h⟩
      intro y hy
      rcases List.mem_cons.mp hy with rfl | hmem
      · omega
      · exact le_trans (by omega) (hx y hmem)

theorem foldl_insertByStart_sorted :
    ∀ l acc : List StoredEvent,
      acc.Sorted (fun a b => a.startEpoch ≤ b.startEpoch) →
      (l.foldl (fun acc e => insertByStart e acc) acc).Sorted
        (fun a b => a.startEpoch ≤ b.startEpoch) := by
  intro l
  induction l with
  | nil => intro acc hacc; exact hacc
  | cons e es ih => intro acc hacc; exact ih _ (insertByStart_sorted hacc e)

theorem sortByStart_sorted (l : List StoredEvent) :
    (sortByStart l).Sorted (fun a b => a.startEpoch ≤ b.startEpoch) :=
  foldl_insertByStart_sorted l [] (by simp)

/-! ## Concrete sample inputs used by the witnesses -/

/-- A concrete environment: clock at 1700000100, timezone offset +120 min,
schedule 08:00-17:00 enabled, breaks 03:45-04:00 and 06:00-06:30 enabled. -/
def sampleEnv : Env where
  epochNow := 1700000100
  tzSelValue := "120"
  winEnabled := true
  winStart := "08:00"
  winEnd := "17:00"
  breaksEnabled := true
  b1Start := "03:45"
  b1End := "04:00"
  b2Start := "06:00"
  b2End := "06:30"
  threshVal := "0.003"
  hystVal := "0.0015"
  secsDownVal := "5"
  secsUpVal := "3"

/-- The state right after a successful connect to a device named
`BeltStop-A1`. -/
def stConn : St := connectSuccess (some "BeltStop-A1") initSt

/-! ## Claims -/

/-- C1: for every sequence of chunks whose concatenation consists of
newline-terminated segments that are non-empty (after the trim the framer
applies), the framer emits exactly those segments, trimmed, in arrival
order — one emission per segment, none split, none duplicated — and the
emitted lines depend only on the concatenation, not on the chunking. -/
theorem framer_chunking_invariance (chunks : List (List Char))
    (h : ∀ s ∈ (rawSegs chunks.flatten).1, trimChars s ≠ []) :
    (feedAll chunks).1 = (rawSegs chunks.flatten).1.map trimChars ∧
    ∀ chunks' : List (List Char), chunks'.flatten = chunks.flatten →
      feedAll chunks' = feedAll chunks := by
  constructor
  · rw [feedAll_eq_flatten, processBuffer_eq_rawSegs]
    dsimp only
    refine List.filter_eq_self.mpr ?_
    intro t ht
    obtain ⟨s, hs, rfl⟩ := List.mem_map.mp ht
    simpa [List.isEmpty_iff] using h s hs
  · intro chunks' hc
    rw [feedAll_eq_flatten, feedAll_eq_flatten, hc]

/-- Witness for C1: two protocol lines split across three odd chunk
boundaries are emitted exactly as the two trimmed segments of the
concatenation. -/
theorem framer_chunking_invariance_wit :
    (∀ s ∈ (rawSegs (["EV,17".data, "00000000,4523,17\nSY".data,
        "NC,DONE,42\n".data] : List (List Char)).flatten).1, trimChars s ≠ []) ∧
    (feedAll ["EV,17".data, "00000000,4523,17\nSY".data, "NC,DONE,42\n".data]).1 =
      (rawSegs (["EV,17".data, "00000000,4523,17\nSY".data,
        "NC,DONE,42\n".data] : List (List Char)).flatten).1.map trimChars :=
  ⟨by decide, (framer_chunking_invariance
      ["EV,17".data, "00000000,4523,17\nSY".data, "NC,DONE,42\n".data] (by decide)).1⟩

/-- C8: after any sequence of chunk deliveries the retained `lineBuffer`
contains no newline character — it holds at most the one partial
non-terminated tail line. -/
theorem line_buffer_no_newline_invariant (chunks : List (List Char)) :
    '\n' ∉ (feedAll chunks).2 := by
  rw [feedAll_eq_flatten]
  exact processBuffer_tail_no_newline _

/-- C2: while connected, a well-formed `SYNC,DONE,<n>` line makes the
controller write the single outbound line `SYNC,ACK,<n>` — echoing exactly
the index it records in `lastIdxFromDevice`. -/
theorem sync_done_acks_and_records_index (env : Env) (st : St)
    (line t : String) (rest : List String) (n : Int)
    (hconn : st.rxCharSet = true)
    (hsplit : jsSplit ',' line = "SYNC" :: "DONE" :: t :: rest)
    (hn : jsParseInt10 t = some n) :
    (handleLine env st line).2 = ["SYNC,ACK," ++ toString n ++ "\n"] ∧
    (handleLine env st line).1.lastIdxFromDevice = n := by
  simp [handleLine, hsplit, handleParts, parseIntOr0, hn, writeLineEff, hconn]

/-- Witness for C2: the claim's concrete instance `SYNC,DONE,42`. -/
theorem sync_done_acks_and_records_index_wit :
    (handleLine sampleEnv stConn "SYNC,DONE,42").2 = ["SYNC,ACK," ++ toString (42 : Int) ++ "\n"] ∧
    (handleLine sampleEnv stConn "SYNC,DONE,42").1.lastIdxFromDevice = 42 :=
  sync_done_acks_and_records_index sampleEnv stConn "SYNC,DONE,42" "42" [] 42
    (by decide) (by decide) (by decide)

/-- C4: a well-formed `EV` line decodes its three numeric fields with exact
fidelity into the stored event handed to the event store (appended with the
next auto-increment id), writes nothing outbound, and updates the stop
displays. -/
theorem ev_line_decodes_exactly (env : Env) (st : St) (line a b c : String)
    (rest : List String) (n1 n2 n3 : Int)
    (hsplit : jsSplit ',' line = "EV" :: a :: b :: c :: rest)
    (h1 : jsParseInt10 a = some n1) (h2 : jsParseInt10 b = some n2)
    (h3 : jsParseInt10 c = some n3) :
    (handleLine env st line).1.events =
      st.events ++ [⟨st.nextId, n1, n2, deviceIdOf st, n3⟩] ∧
    (handleLine env st line).2 = [] ∧
    (handleLine env st line).1.shiftStops = some n3 ∧
    (handleLine env st line).1.lastStop = some (n1, n2) := by
  simp [handleLine, hsplit, handleParts, parseIntOr0, h1, h2, h3]

/-- Witness for C4: the claim's concrete instance `EV,1700000000,4523,17`
stores `startEpoch = 1700000000`, `durationMs = 4523`, `accumStops = 17`. -/
theorem ev_line_decodes_exactly_wit :
    (handleLine sampleEnv stConn "EV,1700000000,4523,17").1.events =
      stConn.events ++ [⟨stConn.nextId, 1700000000, 4523, deviceIdOf stConn, 17⟩] :=
  (ev_line_decodes_exactly sampleEnv stConn "EV,1700000000,4523,17"
    "1700000000" "4523" "17" [] 1700000000 4523 17
    (by decide) (by decide) (by decide) (by decide)).1

/-- Counterexample for C5 as stated: the under-length line `HELLO,x`
(2 fields, minimum 8) is not a no-op — the HELLO branch still issues all
three configuration pushes and saves two settings, because the field-count
check only guards the accumStops display update. -/
theorem under_length_hello_pushes_cex :
    (handleLine sampleEnv stConn "HELLO,x").2.length = 3 ∧
    (handleLine sampleEnv stConn "HELLO,x").1.savedKeys = ["schedule", "breaks"] := by
  decide

/-- C5 (amended): for the kinds CAL, EV and SYNC, an under-length line is a
silent no-op (no stored event, no outbound write, no state change, no
error), an unknown kind is likewise a silent no-op, and the field-count
checks are at-least-N (an EV line with extra fields is still accepted);
the HELLO kind is the exception — an under-length HELLO skips only the
accumStops display update and still triggers the configuration pushes. -/
theorem under_length_unknown_lines_are_noops :
    (∀ (env : Env) (st : St) (line : String),
      (jsSplit ',' line).headD "" ≠ "HELLO" →
      (jsSplit ',' line).headD "" ≠ "CAL" →
      (jsSplit ',' line).headD "" ≠ "EV" →
      (jsSplit ',' line).headD "" ≠ "SYNC" →
      handleLine env st line = (st, [])) ∧
    (∀ (env : Env) (st : St) (line : String),
      jsSplit ',' line = ["CAL"] → handleLine env st line = (st, [])) ∧
    (∀ (env : Env) (st : St) (line : String) (rest : List String),
      jsSplit ',' line = "EV" :: rest → rest.length < 3 →
      handleLine env st line = (st, [])) ∧
    (∀ (env : Env) (st : St) (line : String) (rest : List String),
      jsSplit ',' line = "SYNC" :: rest →
      rest.length < 2 ∨ rest.headD "" ≠ "DONE" →
      handleLine env st line = (st, [])) ∧
    (∀ (env : Env) (st : St) (line : String) (a b c : String) (rest : List String),
      jsSplit ',' line = "EV" :: a :: b :: c :: rest →
      (handleLine env st line).1.events.length = st.events.length + 1) := by
  refine ⟨?_, ?_, ?_, ?_, ?_⟩
  · intro env st line h1 h2 h3 h4
    rw [List.headD_eq_head?] at h1 h2 h3 h4
    simp [handleLine, handleParts, h1, h2, h3, h4]
  · intro env st line hsplit
    simp [handleLine, hsplit, handleParts]
  · intro env st line rest hsplit hlen
    have h4 : ¬ 3 ≤ rest.length := by omega
    simp [handleLine, hsplit, handleParts, h4]
  · intro env st line rest hsplit hcond
    rcases hcond with hlen | hd
    · have hx : ¬ 2 ≤ rest.length := by omega
      simp [handleLine, hsplit, handleParts, hx]
    · have hx : rest[0]?.getD "" ≠ "DONE" := by cases rest <;> simp_all
      simp [handleLine, hsplit, handleParts, hx]
  · intro env st line a b c rest hsplit
    simp [handleLine, hsplit, handleParts]

/-- Witness for C5 (amended): concrete no-op instances — the claim's own
example `EV,1700000000`, an unknown kind `FOO,1`, `SYNC,REQ` arriving
inbound, and an EV line with one extra field still being stored. -/
theorem under_length_unknown_lines_are_noops_wit :
    handleLine sampleEnv stConn "EV,1700000000" = (stConn, []) ∧
    handleLine sampleEnv stConn "FOO,1" = (stConn, []) ∧
    handleLine sampleEnv stConn "SYNC,REQ" = (stConn, []) ∧
    (handleLine sampleEnv stConn "EV,1,2,3,extra").1.events.length =
      stConn.events.length + 1 :=
  ⟨under_length_unknown_lines_are_noops.2.2.1 sampleEnv stConn "EV,1700000000"
      ["1700000000"] (by decide) (by decide),
   under_length_unknown_lines_are_noops.1 sampleEnv stConn "FOO,1"
      (by decide) (by decide) (by decide) (by decide),
   under_length_unknown_lines_are_noops.2.2.2.1 sampleEnv stConn "SYNC,REQ"
      ["REQ"] (by decide) (by decide),
   under_length_unknown_lines_are_noops.2.2.2.2 sampleEnv stConn "EV,1,2,3,extra"
      "1" "2" "3" ["extra"] (by decide)⟩

/-- C6: for every recognized kind, a line meeting its minimum field count
whose numeric field is malformed decodes that field to the fallback 0 while
the rest of the message is still processed: a non-numeric CAL value
displays as the fallback `0.000000`; an EV line with a non-numeric start,
duration or accumStops field is still stored, with 0 in the malformed field
and the other fields decoded by the same lenient rule; a `SYNC,DONE` line
with a non-numeric index records 0 and still ACKs with `SYNC,ACK,0`; and a
full-length HELLO with a non-numeric accumStops field displays 0 and still
issues the three configuration pushes.  (All paths are total functions: no
exception is modelled because none can be thrown.) -/
theorem malformed_numeric_field_zero_fallback :
    (∀ (env : Env) (st : St) (line t : String) (rest : List String),
      jsSplit ',' line = "CAL" :: t :: rest →
      jsParseFloat t = none →
      (handleLine env st line).1 = { st with vibGDisplay := some "0.000000" } ∧
      (handleLine env st line).2 = []) ∧
    (∀ (env : Env) (st : St) (line a b c : String) (rest : List String),
      jsSplit ',' line = "EV" :: a :: b :: c :: rest →
      jsParseInt10 a = none →
      (handleLine env st line).1.events =
        st.events ++ [⟨st.nextId, 0, parseIntOr0 b, deviceIdOf st, parseIntOr0 c⟩] ∧
      (handleLine env st line).2 = []) ∧
    (∀ (env : Env) (st : St) (line a b c : String) (rest : List String),
      jsSplit ',' line = "EV" :: a :: b :: c :: rest →
      jsParseInt10 b = none →
      (handleLine env st line).1.events =
        st.events ++ [⟨st.nextId, parseIntOr0 a, 0, deviceIdOf st, parseIntOr0 c⟩] ∧
      (handleLine env st line).2 = []) ∧
    (∀ (env : Env) (st : St) (line a b c : String) (rest : List String),
      jsSplit ',' line = "EV" :: a :: b :: c :: rest →
      jsParseInt10 c = none →
      (handleLine env st line).1.events =
        st.events ++ [⟨st.nextId, parseIntOr0 a, parseIntOr0 b, deviceIdOf st, 0⟩] ∧
      (handleLine env st line).1.shiftStops = some 0 ∧
      (handleLine env st line).2 = []) ∧
    (∀ (env : Env) (st : St) (line t : String) (rest : List String),
      jsSplit ',' line = "SYNC" :: "DONE" :: t :: rest →
      jsParseInt10 t = none →
      (handleLine env st line).1.lastIdxFromDevice = 0 ∧
      (handleLine env st line).2 = writeLineEff st "SYNC,ACK,0") ∧
    (∀ (env : Env) (st : St) (line : String) (rest : List String),
      jsSplit ',' line = "HELLO" :: rest →
      7 ≤ rest.length →
      jsParseInt10 (rest.getD 6 "") = none →
      (handleLine env st line).1.shiftStops = some 0 ∧
      (handleLine env st line).2 =
        writeLineEff st (timeLine env) ++ writeLineEff st (schedLine env) ++
          writeLineEff st (breaksLine env)) := by
  refine ⟨?_, ?_, ?_, ?_, ?_, ?_⟩
  · intro env st line t rest hsplit hnan
    simp [handleLine, hsplit, handleParts, hnan, calDisplay]
  · intro env st line a b c rest hsplit hnan
    simp [handleLine, hsplit, handleParts, parseIntOr0, hnan]
  · intro env st line a b c rest hsplit hnan
    simp [handleLine, hsplit, handleParts, parseIntOr0, hnan]
  · intro env st line a b c rest hsplit hnan
    simp [handleLine, hsplit, handleParts, parseIntOr0, hnan]
  · intro env st line t rest hsplit hnan
    have h0 : ("SYNC,ACK," ++ toString (0 : Int) : String) = "SYNC,ACK,0" := by decide
    simp [handleLine, hsplit, handleParts, parseIntOr0, hnan, h0]
  · intro env st line rest hsplit hlen hnan
    simp [List.getD] at hnan
    simp [handleLine, hsplit, handleParts, hlen, parseIntOr0, hnan,
          sendTimeOnlyM, sendScheduleM, sendBreaksM, writeLineEff]

/-- Witness for C6: the claim's concrete instance `CAL,notanumber` displays
the fallback; `EV,junk,60,7`, `EV,5,junk,7` and `EV,5,60,junk` each store
0 in the malformed field and the intact values elsewhere; `SYNC,DONE,junk`
ACKs with index 0; and `HELLO,dev1,FW,1.2,1,0,3700,junk` displays 0 and
still pushes the configuration. -/
theorem malformed_numeric_field_zero_fallback_wit :
    (handleLine sampleEnv stConn "CAL,notanumber").1 =
      { stConn with vibGDisplay := some "0.000000" } ∧
    (handleLine sampleEnv stConn "EV,junk,60,7").1.events =
      stConn.events ++ [⟨stConn.nextId, 0, parseIntOr0 "60", deviceIdOf stConn,
        parseIntOr0 "7"⟩] ∧
    (handleLine sampleEnv stConn "EV,5,junk,7").1.events =
      stConn.events ++ [⟨stConn.nextId, parseIntOr0 "5", 0, deviceIdOf stConn,
        parseIntOr0 "7"⟩] ∧
    (handleLine sampleEnv stConn "EV,5,60,junk").1.events =
      stConn.events ++ [⟨stConn.nextId, parseIntOr0 "5", parseIntOr0 "60",
        deviceIdOf stConn, 0⟩] ∧
    (handleLine sampleEnv stConn "SYNC,DONE,junk").2 =
      writeLineEff stConn "SYNC,ACK,0" ∧
    (handleLine sampleEnv stConn "HELLO,dev1,FW,1.2,1,0,3700,junk").1.shiftStops =
      some 0 :=
  ⟨(malformed_numeric_field_zero_fallback.1 sampleEnv stConn "CAL,notanumber"
      "notanumber" [] (by decide) (by decide)).1,
   (malformed_numeric_field_zero_fallback.2.1 sampleEnv stConn "EV,junk,60,7"
      "junk" "60" "7" [] (by decide) (by decide)).1,
   (malformed_numeric_field_zero_fallback.2.2.1 sampleEnv stConn "EV,5,junk,7"
      "5" "junk" "7" [] (by decide) (by decide)).1,
   (malformed_numeric_field_zero_fallback.2.2.2.1 sampleEnv stConn "EV,5,60,junk"
      "5" "60" "junk" [] (by decide) (by decide)).1,
   (malformed_numeric_field_zero_fallback.2.2.2.2.1 sampleEnv stConn "SYNC,DONE,junk"
      "junk" [] (by decide) (by decide)).2,
   (malformed_numeric_field_zero_fallback.2.2.2.2.2 sampleEnv stConn
      "HELLO,dev1,FW,1.2,1,0,3700,junk"
      ["dev1", "FW", "1.2", "1", "0", "3700", "junk"]
      (by decide) (by decide) (by decide)).1⟩

/-- C7: a well-formed HELLO line received while connected updates the
accumStops display from the 8th field and then writes exactly the three
configuration pushes — time (`TIME,UTC,...`), schedule (`CFG,SCHED,...`)
and breaks (`CFG,BREAKS,...`) — in that fixed order. -/
theorem hello_pushes_time_sched_breaks_in_order (env : Env) (st : St)
    (line : String) (rest : List String)
    (hconn : st.rxCharSet = true)
    (hsplit : jsSplit ',' line = "HELLO" :: rest)
    (hlen : 7 ≤ rest.length) :
    (handleLine env st line).2 =
      [timeLine env ++ "\n", schedLine env ++ "\n", breaksLine env ++ "\n"] ∧
    (handleLine env st line).1.shiftStops = some (parseIntOr0 (rest.getD 6 "")) := by
  simp [handleLine, hsplit, handleParts, hlen, sendTimeOnlyM, sendScheduleM,
        sendBreaksM, writeLineEff, hconn]

/-- Witness for C7: a full 8-field HELLO line. -/
theorem hello_pushes_time_sched_breaks_in_order_wit :
    (handleLine sampleEnv stConn "HELLO,dev1,FW,1.2,1,0,3700,17").2 =
      [timeLine sampleEnv ++ "\n", schedLine sampleEnv ++ "\n",
       breaksLine sampleEnv ++ "\n"] ∧
    (handleLine sampleEnv stConn "HELLO,dev1,FW,1.2,1,0,3700,17").1.shiftStops =
      some (parseIntOr0 ((["dev1", "FW", "1.2", "1", "0", "3700", "17"] :
        List String).getD 6 "")) :=
  hello_pushes_time_sched_breaks_in_order sampleEnv stConn
    "HELLO,dev1,FW,1.2,1,0,3700,17" ["dev1", "FW", "1.2", "1", "0", "3700", "17"]
    (by decide) (by decide) (by decide)

/-- Counterexample for C3 as stated: the disconnect transition does NOT
clear the characteristic/service handles — after connect-then-disconnect
`rxChar` and `service` are still set, and a `writeLine` call in that state
would still write (only `setConnected(false)` runs, which disables the
command buttons). -/
theorem disconnect_leaves_handles_set_cex :
    (onDisconnectedM (connectSuccess (some "BeltStop-A1") initSt)).rxCharSet = true ∧
    (onDisconnectedM (connectSuccess (some "BeltStop-A1") initSt)).serviceSet = true ∧
    writeLineEff (onDisconnectedM (connectSuccess (some "BeltStop-A1") initSt))
      "SYNC,REQ" = ["SYNC,REQ\n"] := by
  decide

/-- C3 (amended): after a disconnect event the controller is in the
Disconnected UI state, in which every user-triggered command action is a
no-op producing no outbound bytes, and it stays that way across any
sequence of user actions until a successful connect; the disconnect
transition however leaves the characteristic/service handles set — the
blocking mechanism is the disabled command buttons, not cleared handles. -/
theorem disconnected_blocks_user_writes (env : Env) (st : St) (acts : List UAct)
    (h : st.connectedUI = false) :
    (runUActs env st acts).2 = [] ∧
    (runUActs env st acts).1.connectedUI = false ∧
    (onDisconnectedM st).connectedUI = false ∧
    (onDisconnectedM st).rxCharSet = st.rxCharSet ∧
    (onDisconnectedM st).serviceSet = st.serviceSet := by
  refine ⟨?_, ?_, rfl, rfl, rfl⟩ <;>
  · induction acts generalizing st with
    | nil => simp [runUActs, h]
    | cons a as ih =>
      simp only [runUActs, doUAct, h, Bool.false_eq_true, if_false]
      simpa using ih st h

/-- Witness for C3 (amended): after disconnecting from a live session, a
time push followed by a sync request produces no outbound bytes. -/
theorem disconnected_blocks_user_writes_wit :
    (onDisconnectedM stConn).connectedUI = false ∧
    (runUActs sampleEnv (onDisconnectedM stConn) [.uSendTime, .uSyncReq]).2 = [] :=
  ⟨rfl, (disconnected_blocks_user_writes sampleEnv (onDisconnectedM stConn)
    [.uSendTime, .uSyncReq] (by decide)).1⟩

/-- C9: for `fromE ≤ toE`, the range query returns exactly the stored
events whose `startEpoch` lies in the inclusive window `[fromE, toE]`
(inclusive at both bounds), ordered by start time ascending. -/
theorem query_range_inclusive_sorted (events : List StoredEvent) (fromE toE : Int)
    (hft : fromE ≤ toE) :
    (∀ e, e ∈ queryEventsByRange events fromE toE ↔
        e ∈ events ∧ fromE ≤ e.startEpoch ∧ e.startEpoch ≤ toE) ∧
    List.Perm (queryEventsByRange events fromE toE)
      (events.filter (fun e =>
        decide (fromE ≤ e.startEpoch) && decide (e.startEpoch ≤ toE))) ∧
    (queryEventsByRange events fromE toE).Sorted
      (fun a b => a.startEpoch ≤ b.startEpoch) := by
  have hperm : List.Perm (queryEventsByRange events fromE toE)
      (events.filter (fun e =>
        decide (fromE ≤ e.startEpoch) && decide (e.startEpoch ≤ toE))) :=
    sortByStart_perm _
  refine ⟨?_, hperm, sortByStart_sorted _⟩
  intro e
  rw [hperm.mem_iff, List.mem_filter]
  simp

/-- Witness for C9: a four-event store queried over `[10, 50]` returns the
in-range events sorted ascending (ties in insertion order). -/
theorem query_range_inclusive_sorted_wit :
    ((10 : Int) ≤ 50) ∧
    (queryEventsByRange [⟨1, 50, 1, "a", 0⟩, ⟨2, 10, 2, "b", 0⟩,
        ⟨3, 99, 3, "c", 0⟩, ⟨4, 50, 4, "d", 0⟩] 10 50).Sorted
      (fun a b => a.startEpoch ≤ b.startEpoch) :=
  ⟨by decide,
   (query_range_inclusive_sorted [⟨1, 50, 1, "a", 0⟩, ⟨2, 10, 2, "b", 0⟩,
      ⟨3, 99, 3, "c", 0⟩, ⟨4, 50, 4, "d", 0⟩] 10 50 (by decide)).2.2⟩

/-- C10: before any successful connect the `rxChar` handle is unset, and
`writeLine` with the handle unset is a silent no-op for every string — it
returns without writing any bytes (and, being a total function, without
any error). -/
theorem writeLine_noop_without_rxChar :
    initSt.rxCharSet = false ∧
    ∀ st : St, st.rxCharSet = false → ∀ s : String, writeLineEff st s = [] := by
  refine ⟨rfl, ?_⟩
  intro st h s
  simp [writeLineEff, h]

/-- Witness for C10: in the initial state, writing `SYNC,REQ` sends
nothing. -/
theorem writeLine_noop_without_rxChar_wit :
    initSt.rxCharSet = false ∧ writeLineEff initSt "SYNC,REQ" = [] :=
  ⟨(writeLine_noop_without_rxChar).1,
   (writeLine_noop_without_rxChar).2 initSt (by decide) "SYNC,REQ"⟩

end BeltStop
